import Mathlib

/-!
Verification of the NCBM_System network-configuration backup tool.

The development shallowly embeds the Python sources:
  - `diff_engine.py`   (volatility filter and configuration comparison,
    including a faithful model of Python `difflib.unified_diff`),
  - `device_manager.py` (connect with retry/backoff, command execution with
    reconnect-and-retry, session cache),
  - `scheduler.py`     (per-device backup pipeline and the full run),
  - `backup_manager.py` (retention pruning).

Texts are modelled as `List Char` (named `Str`).  Python string operations
(`strip`, `lower`, `splitlines`, substring containment, `startswith`) are
embedded for the ASCII fragment the program manipulates;
`splitlines` is modelled for the newline character, the only line
terminator occurring in device configurations handled by the tool.
External effects (the netmiko transport, the filesystem, timestamp parsing
by `strptime`) are modelled as oracle parameters: a function or value
describing what the external call would return at each step.
-/

/-- Texts are lists of characters (the content of a Python `str`). -/
abbrev Str : Type := List Char

/-- Conversion from a Lean string literal, used for concrete inputs. -/
def strOf (s : String) : Str := s.data

/-- Python `str.isspace` for the ASCII whitespace characters. -/
def pySpace (c : Char) : Bool :=
  c = ' ' || c = '\t' || c = '\n' || c = '\r' || c = '\x0b' || c = '\x0c'

/-- Python `str.strip()`: remove leading and trailing whitespace. -/
def pyStrip (s : Str) : Str :=
  ((List.dropWhile pySpace s).reverse.dropWhile pySpace).reverse

/-- Python `str.lower()` on the ASCII fragment. -/
def pyLower (s : Str) : Str := List.map Char.toLower s

/-- Python `needle in hay` substring containment. -/
def isSubstr (needle : Str) : Str → Bool
  | [] => List.isEmpty needle
  | c :: rest => List.isPrefixOf needle (c :: rest) || isSubstr needle rest

/-- Python `str.startswith`. -/
def pyStarts (p : Str) (s : Str) : Bool := List.isPrefixOf p s

/-- Python `str.splitlines(keepends=True)` for newline-terminated lines. -/
def splitKeepAux (acc : Str) : Str → List Str
  | [] => if acc.isEmpty then [] else [acc.reverse]
  | c :: rest =>
    if c = '\n' then (acc.reverse ++ ['\n']) :: splitKeepAux [] rest
    else splitKeepAux (c :: acc) rest

/-- Python `text.splitlines(keepends=True)` (newline terminators). -/
def splitLinesKeep (s : Str) : List Str := splitKeepAux [] s

/-- Python `str.splitlines()` without keepends (newline terminators). -/
def splitNoAux (acc : Str) : Str → List Str
  | [] => if acc.isEmpty then [] else [acc.reverse]
  | c :: rest =>
    if c = '\n' then acc.reverse :: splitNoAux [] rest
    else splitNoAux (c :: acc) rest

/-- Python `text.splitlines()` (newline terminators, endings dropped). -/
def splitLinesNo (s : Str) : List Str := splitNoAux [] s

/-- Python `''.join(lines)`. -/
def joinStr (ls : List Str) : Str := List.foldr (fun a b => a ++ b) [] ls

/-- Stable insertion of `x` into a sorted list (before later equals). -/
def insertLe (le : α → α → Bool) (x : α) : List α → List α
  | [] => [x]
  | y :: ys => if le x y then x :: y :: ys else y :: insertLe le x ys

/-- Stable insertion sort; on a total order this computes the same list
as Python's stable `sorted`, and is structurally recursive so concrete
instances reduce inside the kernel. -/
def insSort (le : α → α → Bool) : List α → List α
  | [] => []
  | x :: xs => insertLe le x (insSort le xs)

namespace DiffEngine

/-- The `skip_patterns` list of `DiffEngine._filter_dynamic_lines`,
verbatim from the source (three of the patterns contain upper-case
letters; they are matched against a lower-cased line, so they can
never fire — the embedding keeps them exactly as written). -/
def skip_patterns : List Str :=
  [strOf "clock", strOf "ntp clock-period", strOf "!Time:",
   strOf "!Last configuration change", strOf "!NVRAM config last updated",
   strOf "version "]

/-- One line of `DiffEngine._filter_dynamic_lines`: `True` when the line is
kept.  Mirrors the source: blank lines and comment lines (leading `!`) are
kept unless they contain `!last` or `!nvram`; any other line is dropped
when it contains one of the skip patterns. -/
def keepLine (line : Str) : Bool :=
  let lower := pyLower (pyStrip line)
  if lower.isEmpty || pyStarts (strOf "!") lower then
    !(isSubstr (strOf "!last") lower || isSubstr (strOf "!nvram") lower)
  else
    !(List.any skip_patterns (fun p => isSubstr p lower))

/-- `DiffEngine._filter_dynamic_lines(lines)`. -/
def filter_dynamic_lines (lines : List Str) : List Str :=
  List.filter keepLine lines

end DiffEngine

/-!
A faithful model of the fragment of Python `difflib` used by
`DiffEngine.compare_configs`: `SequenceMatcher` with no junk predicate
(`isjunk=None`, so the junk set is empty and the junk-extension loops of
`find_longest_match` can never fire) and `unified_diff` with
`fromfile='old_config'`, `tofile='new_config'`, `lineterm=''`, `n=3`.
Recursions that Python drives by a work queue are given explicit fuel;
the fuel bounds chosen are large enough that they are never exhausted on
the lists the proofs evaluate.
-/
namespace Difflib

/-- `b2j[x]`: ascending positions of `x` in `b`, with the autojunk
popularity filter (elements occurring more than `n/100 + 1` times are
dropped when `n >= 200`). -/
def b2j (b : List Str) (x : Str) : List Nat :=
  let idxs := (List.range b.length).filter (fun j => b.get? j = some x)
  if b.length ≥ 200 ∧ idxs.length > b.length / 100 + 1 then [] else idxs

/-- `dict.get(k, 0)` on an association list. -/
def lookup0 (m : List (Nat × Nat)) (k : Nat) : Nat :=
  match List.lookup k m with
  | some v => v
  | none => 0

/-- Inner loop of `find_longest_match`: one row `i`, walking the positions
of `a[i]` in `b` (already restricted to `blo ≤ j < bhi`).  State:
the new `j2len` row and the current best `(besti, bestj, bestsize)`. -/
def flmInner (j2old : List (Nat × Nat)) (i : Nat) :
    List Nat → List (Nat × Nat) → Nat → Nat → Nat →
      List (Nat × Nat) × Nat × Nat × Nat
  | [], newm, bi, bj, bs => (newm, bi, bj, bs)
  | j :: js, newm, bi, bj, bs =>
    let k := if j = 0 then 1 else lookup0 j2old (j - 1) + 1
    let newm' := (j, k) :: newm
    if k > bs then flmInner j2old i js newm' (i - (k - 1)) (j - (k - 1)) k
    else flmInner j2old i js newm' bi bj bs

/-- Outer loop of `find_longest_match` over `i ∈ [alo, ahi)`. -/
def flmOuter (a b : List Str) (blo bhi : Nat) :
    List Nat → List (Nat × Nat) → Nat → Nat → Nat → Nat × Nat × Nat
  | [], _, bi, bj, bs => (bi, bj, bs)
  | i :: is, j2old, bi, bj, bs =>
    let ai := a.getD i []
    let js := ((b2j b ai).filter (fun j => blo ≤ j)).takeWhile (fun j => j < bhi)
    let (newm, bi', bj', bs') := flmInner j2old i js [] bi bj bs
    flmOuter a b blo bhi is newm bi' bj' bs'

/-- Left extension of the best match over equal (non-junk) elements. -/
def extLeft (a b : List Str) (alo blo : Nat) :
    Nat → Nat × Nat × Nat → Nat × Nat × Nat
  | 0, s => s
  | fuel + 1, (bi, bj, bs) =>
    if alo < bi ∧ blo < bj ∧ a.get? (bi - 1) = b.get? (bj - 1) then
      extLeft a b alo blo fuel (bi - 1, bj - 1, bs + 1)
    else (bi, bj, bs)

/-- Right extension of the best match over equal (non-junk) elements. -/
def extRight (a b : List Str) (ahi bhi : Nat) :
    Nat → Nat × Nat × Nat → Nat × Nat × Nat
  | 0, s => s
  | fuel + 1, (bi, bj, bs) =>
    if bi + bs < ahi ∧ bj + bs < bhi ∧ a.get? (bi + bs) = b.get? (bj + bs) then
      extRight a b ahi bhi fuel (bi, bj, bs + 1)
    else (bi, bj, bs)

/-- `SequenceMatcher.find_longest_match(alo, ahi, blo, bhi)`. -/
def find_longest_match (a b : List Str) (alo ahi blo bhi : Nat) :
    Nat × Nat × Nat :=
  let core := flmOuter a b blo bhi (List.range' alo (ahi - alo)) [] alo blo 0
  let left := extLeft a b alo blo core.1 core
  extRight a b ahi bhi ahi left

/-- `SequenceMatcher.get_matching_blocks`, queue-driven (LIFO, as in the
source); `acc` collects the raw blocks. -/
def mbAux (a b : List Str) :
    Nat → List (Nat × Nat × Nat × Nat) → List (Nat × Nat × Nat) →
      List (Nat × Nat × Nat)
  | 0, _, acc => acc
  | _ + 1, [], acc => acc
  | fuel + 1, (alo, ahi, blo, bhi) :: queue, acc =>
    let r := find_longest_match a b alo ahi blo bhi
    let i := r.1
    let j := r.2.1
    let k := r.2.2
    if k ≠ 0 then
      mbAux a b fuel ((i + k, ahi, j + k, bhi) :: (alo, i, blo, j) :: queue)
        ((i, j, k) :: acc)
    else mbAux a b fuel queue acc

/-- Lexicographic order on blocks, for the `sorted` call. -/
def blockLe (x y : Nat × Nat × Nat) : Bool :=
  x.1 < y.1 || (x.1 = y.1 &&
    (x.2.1 < y.2.1 || (x.2.1 = y.2.1 && x.2.2 ≤ y.2.2)))

/-- Merging of adjacent blocks in `get_matching_blocks`. -/
def mergeAdj : Nat → Nat → Nat → List (Nat × Nat × Nat) → List (Nat × Nat × Nat)
  | i1, j1, k1, [] => if k1 ≠ 0 then [(i1, j1, k1)] else []
  | i1, j1, k1, (i2, j2, k2) :: rest =>
    if i1 + k1 = i2 ∧ j1 + k1 = j2 then mergeAdj i1 j1 (k1 + k2) rest
    else (if k1 ≠ 0 then [(i1, j1, k1)] else []) ++ mergeAdj i2 j2 k2 rest

/-- `SequenceMatcher.get_matching_blocks()`. -/
def get_matching_blocks (a b : List Str) : List (Nat × Nat × Nat) :=
  let raw := mbAux a b (2 * (a.length + b.length) + 8)
    [(0, a.length, 0, b.length)] []
  mergeAdj 0 0 0 (insSort blockLe raw) ++ [(a.length, b.length, 0)]

/-- Opcode tags of `difflib`. -/
inductive Tag
  | replace
  | delete
  | insert
  | equal
deriving DecidableEq, Inhabited

/-- One opcode `(tag, i1, i2, j1, j2)`. -/
structure Op where
  tag : Tag
  i1 : Nat
  i2 : Nat
  j1 : Nat
  j2 : Nat
deriving DecidableEq, Inhabited

/-- `SequenceMatcher.get_opcodes()`, folding the matching blocks. -/
def opcodesAux : Nat → Nat → List (Nat × Nat × Nat) → List Op
  | _, _, [] => []
  | i, j, (ai, bj, size) :: rest =>
    let front : List Op :=
      if i < ai ∧ j < bj then [⟨.replace, i, ai, j, bj⟩]
      else if i < ai then [⟨.delete, i, ai, j, bj⟩]
      else if j < bj then [⟨.insert, i, ai, j, bj⟩]
      else []
    let eqOp : List Op :=
      if size ≠ 0 then [⟨.equal, ai, ai + size, bj, bj + size⟩] else []
    front ++ eqOp ++ opcodesAux (ai + size) (bj + size) rest

/-- `SequenceMatcher.get_opcodes()`. -/
def get_opcodes (a b : List Str) : List Op := opcodesAux 0 0 (get_matching_blocks a b)

/-- The grouping loop of `get_grouped_opcodes`: split at `equal` runs
longer than `2n`, keeping `n` context lines on each side. -/
def groupLoop (n : Nat) : List Op → List Op → List (List Op)
  | group, [] =>
    if group ≠ [] ∧
        ¬(group.length = 1 ∧ (group.headD default).tag = .equal) then
      [group]
    else []
  | group, c :: rest =>
    if c.tag = .equal ∧ c.i2 - c.i1 > n * 2 then
      let g := group ++
        [⟨.equal, c.i1, min c.i2 (c.i1 + n), c.j1, min c.j2 (c.j1 + n)⟩]
      let c' : Op := ⟨.equal, max c.i1 (c.i2 - n), c.i2,
        max c.j1 (c.j2 - n), c.j2⟩
      g :: groupLoop n [c'] rest
    else groupLoop n (group ++ [c]) rest

/-- `SequenceMatcher.get_grouped_opcodes(n)`. -/
def get_grouped_opcodes (a b : List Str) (n : Nat) : List (List Op) :=
  let codes := get_opcodes a b
  let codes := if codes.isEmpty then [⟨.equal, 0, 1, 0, 1⟩] else codes
  let codes :=
    match codes with
    | c :: rest =>
      (if c.tag = Tag.equal then
        (⟨.equal, max c.i1 (c.i2 - n), c.i2, max c.j1 (c.j2 - n), c.j2⟩ : Op)
      else c) :: rest
    | [] => []
  let codes :=
    match codes.reverse with
    | [] => []
    | c :: restRev =>
      ((if c.tag = Tag.equal then
        (⟨.equal, c.i1, min c.i2 (c.i1 + n), c.j1, min c.j2 (c.j1 + n)⟩ : Op)
      else c) :: restRev).reverse
  groupLoop n [] codes

/-- Decimal rendering of a number, `str(n)`. -/
def natStr (n : Nat) : Str := (Nat.repr n).data

/-- `_format_range_unified(start, stop)`. -/
def format_range_unified (start stop : Nat) : Str :=
  let beg := start + 1
  let length := stop - start
  if length = 1 then natStr beg
  else
    let beg := if length = 0 then beg - 1 else beg
    natStr beg ++ strOf "," ++ natStr length

/-- `[prefix + line for line in l[i1:i2]]` (tag characters keep the
line's own terminator, exactly as `unified_diff` yields them). -/
def sliceTag (p : Str) (l : List Str) (i1 i2 : Nat) : List Str :=
  ((l.drop i1).take (i2 - i1)).map (fun line => p ++ line)

/-- The per-opcode lines yielded for one group. -/
def groupLines (a b : List Str) (g : List Op) : List Str :=
  (g.map (fun op =>
    if op.tag = .equal then sliceTag (strOf " ") a op.i1 op.i2
    else
      (if op.tag = .replace ∨ op.tag = .delete then
        sliceTag (strOf "-") a op.i1 op.i2
      else []) ++
      (if op.tag = .replace ∨ op.tag = .insert then
        sliceTag (strOf "+") b op.j1 op.j2
      else []))).flatten

/-- The `@@ -r1 +r2 @@` hunk header of one group (`lineterm = ''`). -/
def hunkHeader (g : List Op) : Str :=
  let first := g.headD default
  let last := g.getLastD default
  strOf "@@ -" ++ format_range_unified first.i1 last.i2 ++
    strOf " +" ++ format_range_unified first.j1 last.j2 ++ strOf " @@"

/-- `difflib.unified_diff(a, b, 'old_config', 'new_config', lineterm='')`
as the list of yielded strings. -/
def unified_diff (a b : List Str) : List Str :=
  let groups := get_grouped_opcodes a b 3
  match groups with
  | [] => []
  | _ =>
    strOf "--- old_config" :: strOf "+++ new_config" ::
      (groups.map (fun g => hunkHeader g :: groupLines a b g)).flatten

end Difflib

namespace DiffEngine

/-- The dictionary returned by `DiffEngine.compare_configs`. -/
structure DiffResult where
  has_changes : Bool
  diff : Str
  added_lines : Nat
  removed_lines : Nat
  modified_lines : Nat
deriving DecidableEq

/-- The no-change result dictionary. -/
def noChanges : DiffResult := ⟨false, [], 0, 0, 0⟩

/-- `DiffEngine.compare_configs(old_config, new_config)`. -/
def compare_configs (old_config new_config : Str) : DiffResult :=
  let oldS := pyStrip old_config
  let newS := pyStrip new_config
  if oldS = newS then noChanges
  else
    let old_filtered := filter_dynamic_lines (splitLinesKeep oldS)
    let new_filtered := filter_dynamic_lines (splitLinesKeep newS)
    if pyStrip (joinStr old_filtered) = pyStrip (joinStr new_filtered) then
      noChanges
    else
      let diff_text := joinStr (Difflib.unified_diff old_filtered new_filtered)
      let diff_lines := splitLinesNo diff_text
      let added := (diff_lines.filter (fun l =>
        pyStarts (strOf "+") l && !pyStarts (strOf "+++") l)).length
      let removed := (diff_lines.filter (fun l =>
        pyStarts (strOf "-") l && !pyStarts (strOf "---") l)).length
      if (pyStrip diff_text).isEmpty then noChanges
      else ⟨true, diff_text, added, removed, 0⟩

end DiffEngine

namespace DeviceManager

/-- The attribute `self.connection_retries` set in `DeviceManager.__init__`. -/
def connection_retries : Nat := 3

/-- The attribute `self.retry_delay` set in `DeviceManager.__init__`. -/
def retry_delay : Nat := 2

/-- What the transport reports for one connect attempt: `ok` —
`ConnectHandler` succeeds and `_check_connection` passes; `verifyFail` —
the session opens but the liveness check fails; `timeout` —
`NetmikoTimeoutException`; `authFail` — `NetmikoAuthenticationException`;
`otherErr` — any other exception. -/
inductive ConnectOutcome
  | ok
  | verifyFail
  | timeout
  | authFail
  | otherErr
deriving DecidableEq

/-- What a call to `DeviceManager.connect` produced, together with the
observable retry behaviour: whether a session was obtained, how many
attempts the loop made, and the list of backoff sleeps (in seconds)
performed before attempts, in order. -/
structure ConnectResult where
  connected : Bool
  attempts : Nat
  sleeps : List Nat
deriving DecidableEq

/-- The retry loop of `DeviceManager.connect`: `k` is the 1-based attempt
counter, the second argument the remaining loop iterations
(`retry_count + 1 - k`).  Attempt `k > 1` first sleeps
`retry_delay * (k - 1)`.  `ok` returns the session, `authFail` returns
`None` at once (authentication is not retried); a timeout, any other
exception, and a failed liveness verification all fall through to the
next iteration. -/
def connectAux (delay : Nat) (outcome : Nat → ConnectOutcome) :
    Nat → Nat → ConnectResult
  | _, 0 => ⟨false, 0, []⟩
  | k, r + 1 =>
    let sl : List Nat := if 1 < k then [delay * (k - 1)] else []
    match outcome k with
    | .ok => ⟨true, 1, sl⟩
    | .authFail => ⟨false, 1, sl⟩
    | _ =>
      let rest := connectAux delay outcome (k + 1) r
      ⟨rest.connected, rest.attempts + 1, sl ++ rest.sleeps⟩

/-- `DeviceManager.connect(device_name, retry_count)`.  `cachedValid`
models the preamble: `some true` — a cached session exists and passes the
liveness check, so it is returned without any connect attempt;
`some false` — a cached session exists but fails the check and is
discarded first; `none` — no cached session.  `retryCountArg = none`
selects the default `self.connection_retries`. -/
def connect (cachedValid : Option Bool) (retryCountArg : Option Nat)
    (delay : Nat) (outcome : Nat → ConnectOutcome) : ConnectResult :=
  match cachedValid with
  | some true => ⟨true, 0, []⟩
  | _ => connectAux delay outcome 1 (retryCountArg.getD connection_retries)

/-- Result of one `send_command` call inside `execute_command`, as the
transport oracle reports it. -/
inductive SendRes
  | ok (out : Str)
  | err (msg : Str)
deriving DecidableEq

/-- The string classification of `execute_command`: an exception message
is treated as a connection problem when it contains `connection`,
`timeout` or `closed` (lower-cased). -/
def transientMsg (m : Str) : Bool :=
  isSubstr (strOf "connection") (pyLower m) ||
    isSubstr (strOf "timeout") (pyLower m) ||
    isSubstr (strOf "closed") (pyLower m)

/-- Observable result of `execute_command`: the returned value (`none`
is Python `None`), whether `self.connections` still holds an entry for
the device afterwards, and how many `send_command` calls were made. -/
structure ExecResult where
  output : Option Str
  cacheHolds : Bool
  sendAttempts : Nat
deriving DecidableEq

/-- The command loop of `execute_command`.  `attempt` is the 1-based loop
counter, `cc` the number of `connect` calls already made in this
invocation, `cache` whether `self.connections` holds an entry for the
device, the last argument the remaining loop iterations.  On an error
whose message is transient (and retry allowed, attempts remaining) the
cached session is disconnected and deleted and `connect` is called; on a
non-transient error in that situation the function returns `None`
without touching the cache; on a final-attempt failure the cache entry
is deleted. -/
def execLoop (connectOk : Nat → Bool) (send : Nat → SendRes) (retryOn : Bool)
    (maxA : Nat) : Nat → Nat → Bool → Nat → ExecResult
  | _, _, cache, 0 => ⟨none, cache, 0⟩
  | attempt, cc, cache, r + 1 =>
    match send attempt with
    | .ok out => ⟨some out, cache, 1⟩
    | .err m =>
      if retryOn ∧ attempt < maxA then
        if transientMsg m then
          if connectOk (cc + 1) then
            let rest := execLoop connectOk send retryOn maxA (attempt + 1) (cc + 1) true r
            ⟨rest.output, rest.cacheHolds, rest.sendAttempts + 1⟩
          else ⟨none, false, 1⟩
        else ⟨none, cache, 1⟩
      else ⟨none, false, 1⟩

/-- `DeviceManager.execute_command(device_name, command, retry_on_failure)`.
`cacheEntry`/`cacheValid` describe the preamble state (`self.connections`
holds an entry; `_check_connection` passes on it); `connectOk n` is the
oracle for the `n`-th `self.connect` call of this invocation (`true`
means it returned a session, which `connect` then cached); `send n` the
oracle for the `n`-th `send_command` of the loop. -/
def execute_command (cacheEntry cacheValid : Bool) (connectOk : Nat → Bool)
    (send : Nat → SendRes) (retry_on_failure : Bool) : ExecResult :=
  let maxA := if retry_on_failure then 2 else 1
  if cacheEntry ∧ cacheValid then
    execLoop connectOk send retry_on_failure maxA 1 0 true maxA
  else if connectOk 1 then
    execLoop connectOk send retry_on_failure maxA 1 1 true maxA
  else ⟨none, false, 0⟩

end DeviceManager

namespace BackupScheduler

/-- What the collaborators of `BackupScheduler._backup_device` return for
one device: `capture` — `device_manager.get_config` (`none` is `None`);
`latest` — `backup_manager.get_latest_backup` (a record key, `none` when
no prior backup exists); `storeOk` — whether `backup_manager.backup_config`
returned a path; `oldContent` — `backup_manager.get_backup_content` for
the latest record (`none` is `None`). -/
structure StepInputs where
  capture : Option Str
  latest : Option Nat
  storeOk : Bool
  oldContent : Option Str
deriving DecidableEq

/-- Observable effect of `_backup_device`: how many new backup records
were stored, whether `email_notifier.send_alert` was invoked, and
whether `diff_engine.compare_configs` was invoked. -/
structure StepResult where
  stored : Nat
  alerted : Bool
  compared : Bool
deriving DecidableEq

/-- `BackupScheduler._backup_device(device_name)`.  The latest-backup
lookup happens before the store, so `inp.latest` is the pre-store state;
a falsy capture (`None` or the empty text) returns before storing; a
store failure returns before the diff; the alert is sent exactly when a
prior record existed, its content was truthy, and the comparison reports
changes. -/
def backup_device (inp : StepInputs) : StepResult :=
  match inp.capture with
  | none => ⟨0, false, false⟩
  | some c =>
    if c.isEmpty then ⟨0, false, false⟩
    else if !inp.storeOk then ⟨0, false, false⟩
    else
      match inp.latest with
      | none => ⟨1, false, false⟩
      | some _ =>
        match inp.oldContent with
        | none => ⟨1, false, false⟩
        | some o =>
          if o.isEmpty then ⟨1, false, false⟩
          else ⟨1, (DiffEngine.compare_configs o c).has_changes, true⟩

/-- One observable event of `backup_all_devices`: a device's pipeline ran
(`none` when `_backup_device` raised and the exception was caught), or
the retention cleanup ran. -/
inductive RunEvent
  | ran (d : Nat) (res : Option StepResult)
  | pruned
deriving DecidableEq

/-- One iteration of the device loop of `backup_all_devices`: run
`_backup_device` for `d` inside `try`, so a raised exception (`beh d =
none`) is caught and counted as a failure, and any other outcome as a
success. -/
def runStep (beh : Nat → Option StepInputs)
    (acc : List RunEvent × Nat × Nat) (d : Nat) : List RunEvent × Nat × Nat :=
  match beh d with
  | none => (acc.1 ++ [RunEvent.ran d none], acc.2.1, acc.2.2 + 1)
  | some inp =>
    (acc.1 ++ [RunEvent.ran d (some (backup_device inp))],
     acc.2.1 + 1, acc.2.2)

/-- `BackupScheduler.backup_all_devices()`.  `beh d` is the oracle for
device `d`: `none` means `_backup_device` raised (the caller catches and
counts a failure), `some inp` the collaborator answers it ran against.
Returns the event trace and the `(success_count, fail_count)` pair.  With
no devices the function returns before the loop and the cleanup. -/
def backup_all_devices (devices : List Nat) (beh : Nat → Option StepInputs) :
    List RunEvent × Nat × Nat :=
  if devices.isEmpty then ([], 0, 0)
  else
    let r := devices.foldl (runStep beh) ([], 0, 0)
    (r.1 ++ [RunEvent.pruned], r.2.1, r.2.2)

end BackupScheduler

namespace BackupManager

/-- One directory entry of a device's backup directory, as the filesystem
oracle reports it: the file name, the result of
`datetime.strptime(name.replace('.cfg',''), '%Y%m%d_%H%M%S')` (`none` —
a `ValueError`), and the modification time.  Timestamps are embedded as
naturals ordered like the datetimes they stand for. -/
structure BFile where
  name : Str
  parsedTs : Option Nat
  mtime : Nat
deriving DecidableEq

/-- One entry of the backup root, as `os.listdir(self.backup_dir)`
reports it: the device it names, whether it is a directory, and the
device directory's own listing (`none` — `os.listdir(device_dir)`
raised, e.g. `PermissionError`). -/
structure DevDir where
  dev : Nat
  isDir : Bool
  listing : Option (List BFile)
deriving DecidableEq

/-- `file.endswith('.cfg')`. -/
def endsCfg (s : Str) : Bool := List.isSuffixOf (strOf ".cfg") s

/-- Whether `cleanup_old_backups` removes one file: it must carry the
`.cfg` extension, and its parsed timestamp — or, when parsing fails, its
modification time — must predate the cutoff. -/
def removesFile (cutoff : Nat) (f : BFile) : Bool :=
  endsCfg f.name &&
    (match f.parsedTs with
     | some t => decide (t < cutoff)
     | none => decide (f.mtime < cutoff))

/-- The removals one device directory contributes to a completed
cleanup run: its `.cfg` files whose effective timestamp predates the
cutoff, as `(device, file name)` pairs (spec-side characterization). -/
def devRemovals (cutoff : Nat) (d : DevDir) : List (Nat × Str) :=
  if d.isDir then
    match d.listing with
    | some files => (files.filter (removesFile cutoff)).map (fun f => (d.dev, f.name))
    | none => []
  else []

/-- `BackupManager.cleanup_old_backups()` over the listed entries of the
backup root, in order.  The loop has no per-device exception handler: a
failed `os.listdir(device_dir)` propagates, so `.error removed` reports
the removals performed before the exception escaped, and `.ok removed`
a completed run's removals (as `(device, file name)` pairs). -/
def cleanup_old_backups (cutoff : Nat) :
    List DevDir → Except (List (Nat × Str)) (List (Nat × Str))
  | [] => .ok []
  | d :: rest =>
    if !d.isDir then cleanup_old_backups cutoff rest
    else
      match d.listing with
      | none => .error []
      | some files =>
        let rem := (files.filter (removesFile cutoff)).map (fun f => (d.dev, f.name))
        match cleanup_old_backups cutoff rest with
        | .ok r => .ok (rem ++ r)
        | .error r => .error (rem ++ r)

end BackupManager

/-- Spec-side predicate, stated in the words of the (amended) filter
claim: a line is volatile when, lower-cased and trimmed, it is a
non-blank non-comment line containing `clock`, `ntp clock-period` or
`version `, or a blank/comment line containing `!last` or `!nvram`.
The three mixed-case patterns of the source's `skip_patterns` list are
omitted here: an upper-case letter never occurs in a lower-cased line,
so they cannot match (proved below as `keepLine_eq_not_volatile`). -/
def specVolatileLine (l : Str) : Bool :=
  let ll := pyLower (pyStrip l)
  if ll.isEmpty || pyStarts (strOf "!") ll then
    isSubstr (strOf "!last") ll || isSubstr (strOf "!nvram") ll
  else
    isSubstr (strOf "clock") ll || isSubstr (strOf "ntp clock-period") ll ||
      isSubstr (strOf "version ") ll

/-- Spec-side predicate, stated in the words of the original claim: the
line carries a clock state, NTP clock-period, or last-change/NVRAM
timestamp marker (matched case-insensitively). -/
def claimMarkers (l : Str) : Bool :=
  let ll := pyLower (pyStrip l)
  isSubstr (strOf "clock") ll || isSubstr (strOf "ntp clock-period") ll ||
    isSubstr (strOf "last configuration change") ll ||
    isSubstr (strOf "nvram config last updated") ll ||
    isSubstr (strOf "!last") ll || isSubstr (strOf "!nvram") ll

/-!  Helper lemmas (shared infrastructure for the claim theorems). -/

/-- `Char.ofNat` round-trips on small code points. -/
theorem char_toNat_ofNat_small (n : Nat) (h2 : n ≤ 122) :
    (Char.ofNat n).toNat = n := by
  have hv : Nat.isValidChar n := Or.inl (by omega)
  rw [Char.ofNat, dif_pos hv]
  show (UInt32.ofNat' n _).toBitVec.toNat = n
  simp [UInt32.ofNat', BitVec.toNat_ofNatLt]

/-- `Char.toLower` never yields a basic-latin upper-case letter. -/
theorem toLower_not_upper (c : Char) :
    ¬(65 ≤ (Char.toLower c).toNat ∧ (Char.toLower c).toNat ≤ 90) := by
  show ¬(65 ≤ (if c.toNat ≥ 65 ∧ c.toNat ≤ 90 then Char.ofNat (c.toNat + 32)
      else c).toNat ∧
    (if c.toNat ≥ 65 ∧ c.toNat ≤ 90 then Char.ofNat (c.toNat + 32)
      else c).toNat ≤ 90)
  by_cases h : c.toNat ≥ 65 ∧ c.toNat ≤ 90
  · rw [if_pos h]
    have := char_toNat_ofNat_small (c.toNat + 32) (by omega)
    omega
  · rw [if_neg h]
    omega

/-- A substring's characters are characters of the text. -/
theorem mem_of_isSubstr {n h : Str} (hs : isSubstr n h = true) :
    ∀ c ∈ n, c ∈ h := by
  induction h with
  | nil =>
    intro c hc
    simp only [isSubstr, List.isEmpty_iff] at hs
    subst hs
    cases hc
  | cons hd tl ih =>
    simp only [isSubstr, Bool.or_eq_true] at hs
    intro c hc
    cases hs with
    | inl hp =>
      have hpre : n <+: hd :: tl := by
        exact List.isPrefixOf_iff_prefix.mp hp
      exact hpre.sublist.subset hc
    | inr hrest => exact List.mem_cons_of_mem _ (ih hrest c hc)

/-- A needle containing an upper-case letter is never a substring of a
lower-cased text. -/
theorem isSubstr_pyLower_of_upper {needle : Str} {c : Char}
    (hc : c ∈ needle) (h65 : 65 ≤ c.toNat) (h90 : c.toNat ≤ 90) (s : Str) :
    isSubstr needle (pyLower s) = false := by
  cases hv : isSubstr needle (pyLower s) with
  | false => rfl
  | true =>
    exfalso
    have hmem : c ∈ pyLower s := mem_of_isSubstr hv c hc
    unfold pyLower at hmem
    obtain ⟨d, _, hd⟩ := List.mem_map.mp hmem
    exact toLower_not_upper d (by rw [hd]; exact ⟨h65, h90⟩)

/-- The filter's keep decision is the negation of `specVolatileLine`:
the three mixed-case skip patterns can never match a lower-cased line. -/
theorem keepLine_eq_not_volatile (l : Str) :
    DiffEngine.keepLine l = !specVolatileLine l := by
  unfold DiffEngine.keepLine specVolatileLine
  have hT : isSubstr (strOf "!Time:") (pyLower (pyStrip l)) = false :=
    isSubstr_pyLower_of_upper (c := 'T') (by decide) (by decide) (by decide) _
  have hL : isSubstr (strOf "!Last configuration change")
      (pyLower (pyStrip l)) = false :=
    isSubstr_pyLower_of_upper (c := 'L') (by decide) (by decide) (by decide) _
  have hN : isSubstr (strOf "!NVRAM config last updated")
      (pyLower (pyStrip l)) = false :=
    isSubstr_pyLower_of_upper (c := 'N') (by decide) (by decide) (by decide) _
  cases hb : (List.isEmpty (pyLower (pyStrip l)) ||
      pyStarts (strOf "!") (pyLower (pyStrip l))) with
  | true => simp [hb]
  | false => simp [hb, DiffEngine.skip_patterns, hT, hL, hN, Bool.or_assoc]

/-- The volatility filter, characterized by the spec-side predicate. -/
theorem filter_dynamic_eq_filter_volatile (lines : List Str) :
    DiffEngine.filter_dynamic_lines lines =
      lines.filter (fun l => !specVolatileLine l) :=
  List.filter_congr (fun a _ => keepLine_eq_not_volatile a)

/-- `compare_configs` on equal texts short-circuits to the no-change
dictionary. -/
theorem compare_self (a : Str) :
    DiffEngine.compare_configs a a = DiffEngine.noChanges := by
  unfold DiffEngine.compare_configs
  rw [if_pos rfl]

/-- When the two filtered line sequences agree, `compare_configs`
reports no changes. -/
theorem compare_eq_noChanges_of_filter_eq (a b : Str)
    (hf : DiffEngine.filter_dynamic_lines (splitLinesKeep (pyStrip a)) =
      DiffEngine.filter_dynamic_lines (splitLinesKeep (pyStrip b))) :
    DiffEngine.compare_configs a b = DiffEngine.noChanges := by
  unfold DiffEngine.compare_configs
  by_cases hab : pyStrip a = pyStrip b
  · rw [if_pos hab]
  · rw [if_neg hab]
    simp [hf]

/-- Claim C2 (amended): the volatility filter drops exactly the volatile
lines — non-blank non-comment lines carrying (case-insensitively) a
`clock`, `ntp clock-period` or `version ` marker, and blank/comment lines
carrying a `!last` or `!nvram` marker — and keeps every other line,
including blank lines and unrelated comment lines. -/
theorem filterVolatile_drops_exactly (lines : List Str) :
    DiffEngine.filter_dynamic_lines lines =
      lines.filter (fun l => !specVolatileLine l) :=
  filter_dynamic_eq_filter_volatile lines

/-- Claim C2 counterexample: the line `version 15.2` carries none of the
markers named by the claim (clock state, NTP clock-period,
last-change/NVRAM timestamp), yet the filter drops it. -/
theorem filterVolatile_drops_version_line :
    DiffEngine.filter_dynamic_lines [strOf "version 15.2"] = [] ∧
      claimMarkers (strOf "version 15.2") = false := by
  exact ⟨by decide, by decide⟩

/-- Claim C3 (amended): texts that differ only in one line that the
volatility filter drops on both sides compare as unchanged. -/
theorem compare_volatile_only_change_no_changes (a b : Str)
    (pre post : List Str) (l1 l2 : Str)
    (h1 : splitLinesKeep (pyStrip a) = pre ++ l1 :: post)
    (h2 : splitLinesKeep (pyStrip b) = pre ++ l2 :: post)
    (hv1 : specVolatileLine l1 = true) (hv2 : specVolatileLine l2 = true) :
    (DiffEngine.compare_configs a b).has_changes = false := by
  have hk1 : DiffEngine.keepLine l1 = false := by
    rw [keepLine_eq_not_volatile, hv1]
    rfl
  have hk2 : DiffEngine.keepLine l2 = false := by
    rw [keepLine_eq_not_volatile, hv2]
    rfl
  have hf : DiffEngine.filter_dynamic_lines (splitLinesKeep (pyStrip a)) =
      DiffEngine.filter_dynamic_lines (splitLinesKeep (pyStrip b)) := by
    rw [h1, h2]
    unfold DiffEngine.filter_dynamic_lines
    simp [List.filter_append, List.filter_cons, hk1, hk2]
  rw [compare_eq_noChanges_of_filter_eq a b hf]
  rfl

/-- Witness for the C3 theorem: two configurations differing only in a
`clock` line compare as unchanged. -/
theorem compare_volatile_only_change_no_changes_witness :
    (DiffEngine.compare_configs (strOf "hostname r1\nclock set 1\nend")
      (strOf "hostname r1\nclock set 2\nend")).has_changes = false :=
  compare_volatile_only_change_no_changes _ _
    [strOf "hostname r1\n"] [strOf "end"]
    (strOf "clock set 1\n") (strOf "clock set 2\n")
    (by decide) (by decide) (by decide) (by decide)

/-- Claim C3 counterexample: two texts that differ only in a comment
line carrying the clock marker (matched case-insensitively) — the filter
keeps such comments, so `compare_configs` reports `has_changes = true`. -/
theorem compare_comment_clock_line_has_changes :
    (DiffEngine.compare_configs (strOf "hostname r1\n! clock a")
      (strOf "hostname r1\n! clock b")).has_changes = true ∧
    splitLinesKeep (pyStrip (strOf "hostname r1\n! clock a")) =
      [strOf "hostname r1\n", strOf "! clock a"] ∧
    splitLinesKeep (pyStrip (strOf "hostname r1\n! clock b")) =
      [strOf "hostname r1\n", strOf "! clock b"] ∧
    claimMarkers (strOf "! clock a") = true ∧
    claimMarkers (strOf "! clock b") = true := by
  exact ⟨by decide, by decide, by decide, by decide, by decide⟩

/-- Claim C9: for every text A, `compare_configs(A, A)` reports no
changes, with empty diff text and zero added/removed counts. -/
theorem compare_identical_texts_no_changes (a : Str) :
    (DiffEngine.compare_configs a a).has_changes = false ∧
    (DiffEngine.compare_configs a a).diff = [] ∧
    (DiffEngine.compare_configs a a).added_lines = 0 ∧
    (DiffEngine.compare_configs a a).removed_lines = 0 := by
  rw [compare_self]
  exact ⟨rfl, rfl, rfl, rfl⟩


/-- The connect loop never makes more attempts than it has iterations. -/
theorem connectAux_attempts_le (delay : Nat)
    (outcome : Nat → DeviceManager.ConnectOutcome) :
    ∀ r k, (DeviceManager.connectAux delay outcome k r).attempts ≤ r := by
  intro r
  induction r with
  | zero => intro k; simp [DeviceManager.connectAux]
  | succ n ih =>
    intro k
    unfold DeviceManager.connectAux
    cases outcome k <;> simp
    all_goals exact ih (k + 1)

/-- Sleeps of the connect loop started at attempt `k ≥ 2`: one backoff
sleep of `delay * (k - 1 + i)` before the `i`-th attempt made. -/
theorem connectAux_sleeps_of_ge_two (delay : Nat)
    (outcome : Nat → DeviceManager.ConnectOutcome) :
    ∀ r k, 2 ≤ k →
      (DeviceManager.connectAux delay outcome k r).sleeps =
        (List.range (DeviceManager.connectAux delay outcome k r).attempts).map
          (fun i => delay * (k - 1 + i)) := by
  intro r
  induction r with
  | zero => intro k _; simp [DeviceManager.connectAux]
  | succ n ih =>
    intro k hk
    have key : ∀ rest : DeviceManager.ConnectResult,
        rest.sleeps =
          List.map (fun i => delay * (k + 1 - 1 + i)) (List.range rest.attempts) →
        [delay * (k - 1)] ++ rest.sleeps =
          List.map (fun i => delay * (k - 1 + i)) (List.range (rest.attempts + 1)) := by
      intro rest hr
      rw [hr, List.range_succ_eq_map, List.map_cons, List.map_map]
      simp
      exact fun a _ => Or.inl (by omega)
    unfold DeviceManager.connectAux
    have hsl : (if 1 < k then [delay * (k - 1)] else []) = [delay * (k - 1)] :=
      if_pos (by omega)
    cases outcome k <;> simp only [hsl]
    case ok => simp [List.range_succ]
    case authFail => simp [List.range_succ]
    case verifyFail => exact key _ (ih (k + 1) (by omega))
    case timeout => exact key _ (ih (k + 1) (by omega))
    case otherErr => exact key _ (ih (k + 1) (by omega))

/-- Sleeps of a full connect call: the `i`-th backoff (before attempt
`i + 2`) lasts `delay * (i + 1)` — linear backoff. -/
theorem connectAux_sleeps_top (delay : Nat)
    (outcome : Nat → DeviceManager.ConnectOutcome) (rc : Nat) :
    (DeviceManager.connectAux delay outcome 1 rc).sleeps =
      (List.range ((DeviceManager.connectAux delay outcome 1 rc).attempts - 1)).map
        (fun i => delay * (i + 1)) := by
  cases rc with
  | zero => simp [DeviceManager.connectAux]
  | succ n =>
    unfold DeviceManager.connectAux
    have key : ∀ rest : DeviceManager.ConnectResult,
        rest.sleeps =
          List.map (fun i => delay * (2 - 1 + i)) (List.range rest.attempts) →
        [] ++ rest.sleeps =
          List.map (fun i => delay * (i + 1)) (List.range (rest.attempts + 1 - 1)) := by
      intro rest hr
      rw [List.nil_append, hr]
      simp only [Nat.add_sub_cancel]
      apply List.map_congr_left
      intro a _
      congr 1
      omega
    cases outcome 1 <;> simp only [reduceIte]
    case ok => simp
    case authFail => simp
    case verifyFail => exact key _ (connectAux_sleeps_of_ge_two delay outcome n 2 (by omega))
    case timeout => exact key _ (connectAux_sleeps_of_ge_two delay outcome n 2 (by omega))
    case otherErr => exact key _ (connectAux_sleeps_of_ge_two delay outcome n 2 (by omega))

/-- When every attempt times out, the connect loop uses its whole
attempt budget. -/
theorem connectAux_attempts_allTimeout (delay : Nat)
    (outcome : Nat → DeviceManager.ConnectOutcome)
    (h : ∀ k, outcome k = DeviceManager.ConnectOutcome.timeout) :
    ∀ r k, (DeviceManager.connectAux delay outcome k r).attempts = r := by
  intro r
  induction r with
  | zero => intro k; simp [DeviceManager.connectAux]
  | succ n ih =>
    intro k
    unfold DeviceManager.connectAux
    rw [h k]
    simp
    exact ih (k + 1)

/-- The linear backoff schedule is strictly increasing for a positive
delay. -/
theorem backoff_pairwise (delay : Nat) (hd : 0 < delay) (n : Nat) :
    List.Pairwise (· < ·) ((List.range n).map (fun i => delay * (i + 1))) := by
  rw [List.pairwise_map]
  apply List.Pairwise.imp ?_ (List.pairwise_lt_range n)
  intro i j hij
  have h1 : i + 1 < j + 1 := by omega
  exact Nat.mul_lt_mul_of_le_of_lt (le_refl delay) h1 hd

/-- Claim C4: a connect call makes up to `retryCount` attempts (the
default `connection_retries` is 3); every attempt `k > 1` first sleeps
`retryDelay * (k - 1)`, so the inter-attempt delays are strictly
increasing; a transient transport failure (timeout) is retried until
the attempt budget is exhausted. -/
theorem connect_linear_backoff (delay : Nat)
    (outcome : Nat → DeviceManager.ConnectOutcome) (rcArg : Option Nat)
    (hd : 0 < delay) :
    (DeviceManager.connect none rcArg delay outcome).attempts ≤
        rcArg.getD DeviceManager.connection_retries ∧
    (DeviceManager.connect none rcArg delay outcome).sleeps =
      (List.range ((DeviceManager.connect none rcArg delay outcome).attempts - 1)).map
        (fun i => delay * (i + 1)) ∧
    List.Pairwise (· < ·) (DeviceManager.connect none rcArg delay outcome).sleeps ∧
    DeviceManager.connection_retries = 3 ∧
    ((∀ k, outcome k = DeviceManager.ConnectOutcome.timeout) →
      (DeviceManager.connect none rcArg delay outcome).attempts =
        rcArg.getD DeviceManager.connection_retries) := by
  show (DeviceManager.connectAux delay outcome 1 _).attempts ≤ _ ∧ _
  refine ⟨connectAux_attempts_le delay outcome _ 1,
    connectAux_sleeps_top delay outcome _, ?_, rfl, ?_⟩
  · show List.Pairwise (· < ·) (DeviceManager.connectAux delay outcome 1 _).sleeps
    rw [connectAux_sleeps_top delay outcome]
    exact backoff_pairwise delay hd _
  · intro h
    exact connectAux_attempts_allTimeout delay outcome h _ 1

/-- Witness for C4: with the default budget and delay 2, an
all-timeout device costs 3 attempts with sleeps 2 then 4. -/
theorem connect_linear_backoff_witness :
    (DeviceManager.connect none none 2
        (fun _ => DeviceManager.ConnectOutcome.timeout)).attempts = 3 ∧
    (DeviceManager.connect none none 2
        (fun _ => DeviceManager.ConnectOutcome.timeout)).sleeps = [2, 4] ∧
    List.Pairwise (· < ·) [2, 4] :=
  ⟨(connect_linear_backoff 2 (fun _ => DeviceManager.ConnectOutcome.timeout)
      none (by decide)).2.2.2.2 (fun _ => rfl),
   by decide, by decide⟩

/-- Claim C5: a device that rejects authentication causes the connect
call to return `None` immediately after exactly one attempt, with no
backoff sleep. -/
theorem connect_auth_not_retried (delay : Nat)
    (outcome : Nat → DeviceManager.ConnectOutcome) (rcArg : Option Nat)
    (h1 : ∀ k, outcome k = DeviceManager.ConnectOutcome.authFail)
    (h2 : 0 < rcArg.getD DeviceManager.connection_retries) :
    DeviceManager.connect none rcArg delay outcome = ⟨false, 1, []⟩ := by
  show DeviceManager.connectAux delay outcome 1 _ = _
  obtain ⟨r, hr⟩ : ∃ r, rcArg.getD DeviceManager.connection_retries = r + 1 :=
    ⟨rcArg.getD DeviceManager.connection_retries - 1, by omega⟩
  rw [hr]
  unfold DeviceManager.connectAux
  rw [h1 1]
  simp

/-- Witness for C5 at the default retry budget. -/
theorem connect_auth_not_retried_witness :
    DeviceManager.connect none none 2
      (fun _ => DeviceManager.ConnectOutcome.authFail) = ⟨false, 1, []⟩ :=
  connect_auth_not_retried 2 _ none (fun _ => rfl) (by decide)

/-- The command loop makes at most as many send attempts as it has
iterations. -/
theorem execLoop_attempts_le (cOk : Nat → Bool)
    (send : Nat → DeviceManager.SendRes) (retryOn : Bool) (maxA : Nat) :
    ∀ fuel attempt cc cache,
      (DeviceManager.execLoop cOk send retryOn maxA attempt cc cache fuel).sendAttempts ≤
        fuel := by
  intro fuel
  induction fuel with
  | zero => intro attempt cc cache; simp [DeviceManager.execLoop]
  | succ n ih =>
    intro attempt cc cache
    unfold DeviceManager.execLoop
    cases send attempt with
    | ok out => simp
    | err m =>
      simp only []
      by_cases h1 : retryOn = true ∧ attempt < maxA
      · rw [if_pos h1]
        by_cases h2 : DeviceManager.transientMsg m = true
        · rw [if_pos h2]
          by_cases h3 : cOk (cc + 1) = true
          · rw [if_pos h3]
            have := ih (attempt + 1) (cc + 1) true
            simp
            omega
          · rw [if_neg h3]; simp
        · rw [if_neg h2]; simp
      · rw [if_neg h1]; simp

/-- Claim C1 (amended): `execute_command` makes at most 2 send attempts;
after a transient (transport-classified) failure on the first attempt
with retry allowed, it releases the cached session, reconnects, and
retries exactly once — a second failure returns `None` and leaves the
session cache without an entry for the device; a non-transient error on
the first attempt returns `None` after a single attempt but leaves the
cached session entry in place (the cache is only cleared on a
final-attempt failure). -/
theorem execute_retry_once_and_cache (cOk : Nat → Bool)
    (send : Nat → DeviceManager.SendRes) (retryOn : Bool) (cE cV : Bool) :
    (DeviceManager.execute_command cE cV cOk send retryOn).sendAttempts ≤ 2 ∧
    (∀ m, cE = true → cV = true → retryOn = true →
      send 1 = DeviceManager.SendRes.err m →
      DeviceManager.transientMsg m = true → cOk 1 = true →
      (DeviceManager.execute_command cE cV cOk send retryOn).sendAttempts = 2 ∧
      (∀ m2, send 2 = DeviceManager.SendRes.err m2 →
        (DeviceManager.execute_command cE cV cOk send retryOn).output = none ∧
        (DeviceManager.execute_command cE cV cOk send retryOn).cacheHolds = false) ∧
      (∀ out, send 2 = DeviceManager.SendRes.ok out →
        (DeviceManager.execute_command cE cV cOk send retryOn).output = some out ∧
        (DeviceManager.execute_command cE cV cOk send retryOn).cacheHolds = true)) ∧
    (∀ m, cE = true → cV = true → retryOn = true →
      send 1 = DeviceManager.SendRes.err m →
      DeviceManager.transientMsg m = false →
      (DeviceManager.execute_command cE cV cOk send retryOn).output = none ∧
      (DeviceManager.execute_command cE cV cOk send retryOn).sendAttempts = 1 ∧
      (DeviceManager.execute_command cE cV cOk send retryOn).cacheHolds = true) := by
  refine ⟨?_, ?_, ?_⟩
  · unfold DeviceManager.execute_command
    by_cases hcv : cE = true ∧ cV = true
    · rw [if_pos hcv]
      calc (DeviceManager.execLoop cOk send retryOn _ 1 0 true _).sendAttempts
          ≤ (if retryOn = true then 2 else 1) := execLoop_attempts_le _ _ _ _ _ 1 0 true
        _ ≤ 2 := by cases retryOn <;> simp
    · rw [if_neg hcv]
      by_cases hc1 : cOk 1 = true
      · rw [if_pos hc1]
        calc (DeviceManager.execLoop cOk send retryOn _ 1 1 true _).sendAttempts
            ≤ (if retryOn = true then 2 else 1) := execLoop_attempts_le _ _ _ _ _ 1 1 true
          _ ≤ 2 := by cases retryOn <;> simp
      · rw [if_neg hc1]; simp
  · intro m hcE hcV hr hs1 htr hc1
    subst hcE; subst hcV; subst hr
    refine ⟨?_, fun m2 h2 => ?_, fun out h2 => ?_⟩
    · cases h2 : send 2 with
      | ok out =>
        simp [DeviceManager.execute_command, DeviceManager.execLoop, hs1, htr, hc1, h2]
      | err m2 =>
        simp [DeviceManager.execute_command, DeviceManager.execLoop, hs1, htr, hc1, h2]
    · constructor <;>
        simp [DeviceManager.execute_command, DeviceManager.execLoop, hs1, htr, hc1, h2]
    · constructor <;>
        simp [DeviceManager.execute_command, DeviceManager.execLoop, hs1, htr, hc1, h2]
  · intro m hcE hcV hr hs1 htr
    subst hcE; subst hcV; subst hr
    refine ⟨?_, ?_, ?_⟩ <;>
      simp [DeviceManager.execute_command, DeviceManager.execLoop, hs1, htr]

/-- Witness for C1: a cached session, a transient first failure, a
successful reconnect, and a second transient failure — two attempts,
`None` returned, and the cache left empty. -/
theorem execute_retry_once_and_cache_witness :
    (DeviceManager.execute_command true true (fun _ => true)
      (fun _ => DeviceManager.SendRes.err (strOf "timeout")) true).sendAttempts = 2 ∧
    (DeviceManager.execute_command true true (fun _ => true)
      (fun _ => DeviceManager.SendRes.err (strOf "timeout")) true).output = none ∧
    (DeviceManager.execute_command true true (fun _ => true)
      (fun _ => DeviceManager.SendRes.err (strOf "timeout")) true).cacheHolds = false := by
  have h := (execute_retry_once_and_cache (fun _ => true)
    (fun _ => DeviceManager.SendRes.err (strOf "timeout")) true true true).2.1
    (strOf "timeout") rfl rfl rfl rfl (by decide) rfl
  exact ⟨h.1, (h.2.1 (strOf "timeout") rfl).1, (h.2.1 (strOf "timeout") rfl).2⟩

/-- Claim C1 counterexample: a non-transient error on a first attempt
with retry allowed returns the error, yet the session cache still holds
the entry for the device — the claim's "afterwards the session cache
holds no entry" fails. -/
theorem execute_nontransient_keeps_cache_entry :
    DeviceManager.execute_command true true (fun _ => true)
      (fun _ => DeviceManager.SendRes.err (strOf "unexpected value")) true =
      ⟨none, true, 1⟩ ∧
    DeviceManager.transientMsg (strOf "unexpected value") = false := by
  exact ⟨by decide, by decide⟩

/-- Claim C6: when capture and store succeed, the per-device pipeline
stores exactly one new record regardless of change, and alerts exactly
when a prior latest record existed, its content was readable (a truthy
text — the code's own check), and the comparison reports changes; a
first-ever run (no prior record) and a byte-identical second run both
issue no alert. -/
theorem backup_device_stores_once_alert_iff (inp : BackupScheduler.StepInputs)
    (c : Str) (hc : inp.capture = some c) (hne : c ≠ [])
    (hst : inp.storeOk = true) :
    (BackupScheduler.backup_device inp).stored = 1 ∧
    ((BackupScheduler.backup_device inp).alerted = true ↔
      ∃ t o, inp.latest = some t ∧ inp.oldContent = some o ∧ o ≠ [] ∧
        (DiffEngine.compare_configs o c).has_changes = true) ∧
    (inp.latest = none → (BackupScheduler.backup_device inp).alerted = false) ∧
    (inp.oldContent = some c →
      (BackupScheduler.backup_device inp).alerted = false) := by
  have hce : c.isEmpty = false := by
    cases c with
    | nil => exact absurd rfl hne
    | cons x xs => rfl
  unfold BackupScheduler.backup_device
  rw [hc, hst]
  simp only [hce, Bool.not_true, Bool.false_eq_true, if_false]
  cases hl : inp.latest with
  | none => simp
  | some t =>
    cases ho : inp.oldContent with
    | none => simp
    | some o =>
      by_cases hoe : o.isEmpty = true
      · have : o = [] := List.isEmpty_iff.mp hoe
        subst this
        simp [hoe]
      · have hone : o ≠ [] := by
          intro h
          subst h
          exact hoe rfl
        simp only [hoe, Bool.false_eq_true, if_false]
        refine ⟨trivial, ?_, ?_, ?_⟩
        · constructor
          · intro h
            exact ⟨t, o, rfl, rfl, hone, h⟩
          · rintro ⟨t', o', ht', ho', _, hch⟩
            cases ho'
            exact hch
        · intro h
          exact Option.noConfusion h
        · intro h
          injection h with h'
          subst h'
          rw [compare_self]
          rfl

/-- Witness for C6: a changed capture over a readable prior record
stores one record and alerts. -/
theorem backup_device_stores_once_alert_iff_witness :
    (BackupScheduler.backup_device
      ⟨some (strOf "hostname a"), some 1, true, some (strOf "hostname b")⟩).stored = 1 ∧
    (BackupScheduler.backup_device
      ⟨some (strOf "hostname a"), some 1, true, some (strOf "hostname b")⟩).alerted = true := by
  have h := backup_device_stores_once_alert_iff
    ⟨some (strOf "hostname a"), some 1, true, some (strOf "hostname b")⟩
    (strOf "hostname a") rfl (by decide) rfl
  exact ⟨h.1, h.2.1.mpr ⟨1, strOf "hostname b", rfl, rfl, by decide, by decide⟩⟩

/-- Claim C10: an empty captured text is treated as a capture failure by
the per-device pipeline — no record stored, no diff, no alert — even
though `execute_command` itself returns empty output as a valid,
non-`None` result. -/
theorem empty_capture_is_failure (inp : BackupScheduler.StepInputs)
    (cOk : Nat → Bool) (send : Nat → DeviceManager.SendRes)
    (h : inp.capture = some []) (hs : send 1 = DeviceManager.SendRes.ok []) :
    BackupScheduler.backup_device inp = ⟨0, false, false⟩ ∧
    (DeviceManager.execute_command true true cOk send true).output = some [] := by
  constructor
  · unfold BackupScheduler.backup_device
    rw [h]
    rfl
  · simp [DeviceManager.execute_command, DeviceManager.execLoop, hs]

/-- Witness for C10 at a concrete pipeline state. -/
theorem empty_capture_is_failure_witness :
    BackupScheduler.backup_device ⟨some [], some 3, true, some (strOf "x")⟩ =
      ⟨0, false, false⟩ ∧
    (DeviceManager.execute_command true true (fun _ => true)
      (fun _ => DeviceManager.SendRes.ok []) true).output = some [] :=
  empty_capture_is_failure _ _ _ rfl rfl

/-- The device loop accumulates one `ran` event per device, in order,
independent of the success counters. -/
theorem runStep_foldl (beh : Nat → Option BackupScheduler.StepInputs) :
    ∀ (devices : List Nat) (acc : List BackupScheduler.RunEvent × Nat × Nat),
      (devices.foldl (BackupScheduler.runStep beh) acc).1 =
        acc.1 ++ devices.map (fun d =>
          BackupScheduler.RunEvent.ran d
            ((beh d).map BackupScheduler.backup_device)) := by
  intro devices
  induction devices with
  | nil => intro acc; simp
  | cons d ds ih =>
    intro acc
    rw [List.foldl_cons, ih]
    cases hb : beh d <;> simp [BackupScheduler.runStep, hb]

/-- Claim C7: a non-empty full run produces exactly one pipeline event
per device, in registry order, with every failure caught (a `none`
behaviour still yields that device's event and stops nothing), and the
retention pruning event strictly after all of them; every device's own
pipeline result appears in the trace whatever the other devices did. -/
theorem run_all_runs_every_device_then_prunes (devices : List Nat)
    (beh : Nat → Option BackupScheduler.StepInputs) :
    (devices ≠ [] →
      (BackupScheduler.backup_all_devices devices beh).1 =
        devices.map (fun d =>
          BackupScheduler.RunEvent.ran d
            ((beh d).map BackupScheduler.backup_device)) ++
          [BackupScheduler.RunEvent.pruned]) ∧
    (devices = [] → (BackupScheduler.backup_all_devices devices beh).1 = []) ∧
    (∀ d ∈ devices,
      BackupScheduler.RunEvent.ran d ((beh d).map BackupScheduler.backup_device) ∈
        (BackupScheduler.backup_all_devices devices beh).1) := by
  have htrace : devices ≠ [] →
      (BackupScheduler.backup_all_devices devices beh).1 =
        devices.map (fun d =>
          BackupScheduler.RunEvent.ran d
            ((beh d).map BackupScheduler.backup_device)) ++
          [BackupScheduler.RunEvent.pruned] := by
    intro hne
    unfold BackupScheduler.backup_all_devices
    rw [if_neg (by simpa using hne)]
    simp [runStep_foldl]
  refine ⟨htrace, ?_, ?_⟩
  · intro he
    subst he
    rfl
  · intro d hd
    have hne : devices ≠ [] := by
      rintro rfl
      cases hd
    rw [htrace hne]
    exact List.mem_append_left _ (List.mem_map_of_mem _ hd)

/-- Witness for C7: device 1 raises, device 2 still stores its record,
and pruning runs last. -/
theorem run_all_runs_every_device_then_prunes_witness :
    (BackupScheduler.backup_all_devices [1, 2]
      (fun d => if d = 1 then none
        else some ⟨some (strOf "hostname b"), none, true, none⟩)).1 =
      [BackupScheduler.RunEvent.ran 1 none,
       BackupScheduler.RunEvent.ran 2 (some ⟨1, false, false⟩),
       BackupScheduler.RunEvent.pruned] := by
  rw [(run_all_runs_every_device_then_prunes [1, 2]
    (fun d => if d = 1 then none
      else some ⟨some (strOf "hostname b"), none, true, none⟩)).1 (by decide)]
  rfl

/-- A cleanup run in which every device directory lists successfully
completes, removing per-device exactly the expired `.cfg` files. -/
theorem cleanup_ok_of_no_failure (cutoff : Nat) :
    ∀ dirs : List BackupManager.DevDir,
      (∀ d ∈ dirs, d.isDir = true → d.listing ≠ none) →
      BackupManager.cleanup_old_backups cutoff dirs =
        Except.ok ((dirs.map (BackupManager.devRemovals cutoff)).flatten) := by
  intro dirs
  induction dirs with
  | nil => intro _; rfl
  | cons d ds ih =>
    intro h
    have hds : ∀ x ∈ ds, x.isDir = true → x.listing ≠ none :=
      fun x hx => h x (List.mem_cons_of_mem d hx)
    unfold BackupManager.cleanup_old_backups
    by_cases hd : d.isDir = true
    · rw [if_neg (by simp [hd])]
      cases hl : d.listing with
      | none => exact absurd hl (h d (List.mem_cons_self d ds) hd)
      | some files =>
        rw [ih hds]
        simp [BackupManager.devRemovals, hd, hl]
    · have hd' : d.isDir = false := by
        cases hdd : d.isDir
        · rfl
        · exact absurd hdd hd
      rw [if_pos (by simp [hd'])]
      rw [ih hds]
      simp [BackupManager.devRemovals, hd']

/-- Membership in one device's removal list, characterized. -/
theorem mem_devRemovals (cutoff : Nat) (d : BackupManager.DevDir)
    (dev : Nat) (name : Str) :
    (dev, name) ∈ BackupManager.devRemovals cutoff d ↔
      d.dev = dev ∧ d.isDir = true ∧ ∃ fs, d.listing = some fs ∧
        ∃ f ∈ fs, f.name = name ∧ BackupManager.removesFile cutoff f = true := by
  unfold BackupManager.devRemovals
  by_cases hd : d.isDir = true
  · rw [if_pos hd]
    cases hl : d.listing with
    | none => simp [hd]
    | some fs =>
      simp only [hd, hl, List.mem_map, List.mem_filter, Option.some.injEq,
        true_and]
      constructor
      · rintro ⟨f, ⟨hf, hrem⟩, heq⟩
        injection heq with h1 h2
        exact ⟨h1, fs, rfl, f, hf, h2, hrem⟩
      · rintro ⟨h1, fs', hfs', f, hf, h2, hrem⟩
        cases hfs'
        exact ⟨f, ⟨hf, hrem⟩, by rw [h1, h2]⟩
  · have hd' : d.isDir = false := by
      cases hdd : d.isDir
      · rfl
      · exact absurd hdd hd
    rw [if_neg (by simp [hd'])]
    simp [hd']

/-- Claim C8 (amended): in the absence of I/O failures, retention
pruning removes exactly the `.cfg` records whose timestamp — parsed
from the file-name key, falling back to the modification time when
parsing fails — predates the cutoff, per device, and the removed set is
the same for any ordering of the device directories. -/
theorem prune_removes_exactly_expired (cutoff : Nat)
    (dirs dirs2 : List BackupManager.DevDir)
    (h : ∀ d ∈ dirs, d.isDir = true → d.listing ≠ none)
    (hp : dirs2.Perm dirs) :
    ∃ r r2, BackupManager.cleanup_old_backups cutoff dirs = Except.ok r ∧
      BackupManager.cleanup_old_backups cutoff dirs2 = Except.ok r2 ∧
      (∀ dev name, (dev, name) ∈ r ↔
        ∃ d ∈ dirs, d.dev = dev ∧ d.isDir = true ∧
          ∃ fs, d.listing = some fs ∧ ∃ f ∈ fs, f.name = name ∧
            BackupManager.removesFile cutoff f = true) ∧
      (∀ p, p ∈ r2 ↔ p ∈ r) := by
  have h2 : ∀ d ∈ dirs2, d.isDir = true → d.listing ≠ none :=
    fun d hd => h d (hp.subset hd)
  refine ⟨_, _, cleanup_ok_of_no_failure cutoff dirs h,
    cleanup_ok_of_no_failure cutoff dirs2 h2, ?_, ?_⟩
  · intro dev name
    rw [List.mem_flatten]
    constructor
    · rintro ⟨l, hl, hmem⟩
      obtain ⟨d, hd, rfl⟩ := List.mem_map.mp hl
      obtain ⟨h1, h2', h3⟩ := (mem_devRemovals cutoff d dev name).mp hmem
      exact ⟨d, hd, h1, h2', h3⟩
    · rintro ⟨d, hd, h1, h2', h3⟩
      exact ⟨BackupManager.devRemovals cutoff d, List.mem_map_of_mem _ hd,
        (mem_devRemovals cutoff d dev name).mpr ⟨h1, h2', h3⟩⟩
  · intro p
    rw [List.mem_flatten, List.mem_flatten]
    constructor
    · rintro ⟨l, hl, hmem⟩
      obtain ⟨d, hd, rfl⟩ := List.mem_map.mp hl
      exact ⟨BackupManager.devRemovals cutoff d,
        List.mem_map_of_mem _ (hp.subset hd), hmem⟩
    · rintro ⟨l, hl, hmem⟩
      obtain ⟨d, hd, rfl⟩ := List.mem_map.mp hl
      exact ⟨BackupManager.devRemovals cutoff d,
        List.mem_map_of_mem _ (hp.mem_iff.mpr hd), hmem⟩

/-- Witness for C8: two devices in both orders — an expired parsed-key
record and an expired parse-failing record (pruned by modification
time) are removed, a future-dated record is kept, and both orders
remove the same set. -/
theorem prune_removes_exactly_expired_witness :
    ∃ r r2, BackupManager.cleanup_old_backups 100
        [⟨1, true, some [⟨strOf "20200101_000000.cfg", some 5, 10⟩,
                         ⟨strOf "20990101_000000.cfg", some 200, 10⟩]⟩,
         ⟨2, true, some [⟨strOf "junk.cfg", none, 50⟩]⟩] = Except.ok r ∧
      BackupManager.cleanup_old_backups 100
        [⟨2, true, some [⟨strOf "junk.cfg", none, 50⟩]⟩,
         ⟨1, true, some [⟨strOf "20200101_000000.cfg", some 5, 10⟩,
                         ⟨strOf "20990101_000000.cfg", some 200, 10⟩]⟩] =
        Except.ok r2 ∧
      (∀ dev name, (dev, name) ∈ r ↔
        ∃ d ∈ [(⟨1, true, some [⟨strOf "20200101_000000.cfg", some 5, 10⟩,
                  ⟨strOf "20990101_000000.cfg", some 200, 10⟩]⟩ :
                BackupManager.DevDir),
               ⟨2, true, some [⟨strOf "junk.cfg", none, 50⟩]⟩],
          d.dev = dev ∧ d.isDir = true ∧
          ∃ fs, d.listing = some fs ∧ ∃ f ∈ fs, f.name = name ∧
            BackupManager.removesFile 100 f = true) ∧
      (∀ p, p ∈ r2 ↔ p ∈ r) :=
  prune_removes_exactly_expired 100 _ _ (by decide) (by decide)

/-- Claim C8 counterexample: the first device directory fails to list
(`PermissionError` from `os.listdir`), the exception propagates, and
the second device's record — expired well before the cutoff — is never
pruned: one device's I/O failure does stop pruning of the others. -/
theorem prune_aborts_on_device_io_failure :
    BackupManager.cleanup_old_backups 100
      [⟨1, true, none⟩,
       ⟨2, true, some [⟨strOf "20200101_000000.cfg", some 5, 0⟩]⟩] =
      Except.error [] ∧
    BackupManager.removesFile 100 ⟨strOf "20200101_000000.cfg", some 5, 0⟩ = true := by
  exact ⟨rfl, by decide⟩
